import Mathlib

/-!
# Verification of the genpipeline coroutine pipeline library

This file shallowly embeds the core of `genpipeline/__init__.py`, a
coroutine-based push pipeline library, and proves/refutes the frozen claims
about it.

Modelling conventions (Python coroutines as explicit state machines):

* A pipeline stage is a Python generator produced by
  `coroutine(propagate_exceptions(f))`.  Its protocol is `send` (deliver an
  item), `throw` (deliver a failure) and `close` (finalize).  We model the
  observable reaction of a call by `Res`: `Res.ok` means the generator
  yielded again (the call returned normally), `Res.raised e` means the
  exception `e` escaped to the caller.  Python's `StopIteration` is the
  `Exc.stopIt` exception; every other (ordinary) exception is `Exc.err n`.
* A generator is either `GenSt.live` (suspended at a yield) or `GenSt.dead`
  (terminated).  Python semantics for a dead generator: `send` raises
  `StopIteration`, `throw e` raises `e`, `close` is a no-op.
* A downstream target of unknown behaviour is modelled by `ScriptTgt`: it
  logs every protocol call it receives and answers according to fixed
  response fields.  `FailResp.reraise` is the response of both a
  default stage (which re-raises the failure after forwarding it) and an
  already-terminated generator.
* Stages with a concrete downstream target are modelled as state-machine
  transformers over an abstract target interface `Tgt`.
-/

namespace GenPipeline

/-- Items flowing through the pipeline. -/
abbrev Val := Nat

/-- Exceptions visible at the stage protocol: Python's `StopIteration`
(`stopIt`) and ordinary exceptions, identified by a numeric code. -/
inductive Exc where
  | stopIt
  | err (n : Nat)
deriving DecidableEq, Repr

/-- Result of a protocol call on a generator: it either yielded again
(the call returned normally) or an exception escaped to the caller. -/
inductive Res where
  | ok
  | raised (e : Exc)
deriving DecidableEq, Repr

/-- Liveness of a Python generator. -/
inductive GenSt where
  | live
  | dead
deriving DecidableEq, Repr

/-- A protocol call received by a downstream target:
`send item` (deliver), `fail e` (`throw`), `close` (finalize). -/
inductive Call where
  | send (v : Val)
  | fail (e : Exc)
  | close
deriving DecidableEq, Repr

/-- Scripted reaction of a target to a `throw e` call.  `yielded`: the
target catches the failure and yields again; `stopped`: it catches the
failure and returns (the caller sees `StopIteration`); `reraise`: the
failure propagates back out unchanged (the behaviour of a default stage
and of an already-terminated generator); `other n`: a different ordinary
exception escapes. -/
inductive FailResp where
  | yielded
  | stopped
  | reraise
  | other (n : Nat)
deriving DecidableEq, Repr

/-- The result seen by a caller who threw `e` into a target with the given
scripted reaction. -/
def FailResp.toRes : FailResp → Exc → Res
  | FailResp.yielded, _ => Res.ok
  | FailResp.stopped, _ => Res.raised Exc.stopIt
  | FailResp.reraise, e => Res.raised e
  | FailResp.other n, _ => Res.raised (Exc.err n)

/-- A downstream target of arbitrary behaviour: it records the protocol
calls it receives in `log` and responds according to the `on*` fields. -/
structure ScriptTgt where
  log : List Call
  onSend : Res
  onFail : FailResp
  onClose : Res
deriving DecidableEq, Repr

/-- Append a received `send` call to a script target's log. -/
def recvSend (v : Val) (t : ScriptTgt) : ScriptTgt :=
  { t with log := t.log ++ [Call.send v] }

/-- Append a received `throw` call to a script target's log. -/
def recvFail (e : Exc) (t : ScriptTgt) : ScriptTgt :=
  { t with log := t.log ++ [Call.fail e] }

/-- Append a received `close` call to a script target's log. -/
def recvClose (t : ScriptTgt) : ScriptTgt :=
  { t with log := t.log ++ [Call.close] }

/-- The abstract interface of a downstream target with state type `τ`:
the three protocol operations, each returning the new target state and
the caller-visible result. -/
structure Tgt (τ : Type) where
  send : τ → Val → τ × Res
  fail : τ → Exc → τ × Res
  close : τ → τ × Res

/-- Reaction of a script target to `send`. -/
def ScriptTgt.doSend (t : ScriptTgt) (v : Val) : ScriptTgt × Res :=
  (recvSend v t, t.onSend)

/-- Reaction of a script target to `throw`. -/
def ScriptTgt.doFail (t : ScriptTgt) (e : Exc) : ScriptTgt × Res :=
  (recvFail e t, t.onFail.toRes e)

/-- Reaction of a script target to `close`. -/
def ScriptTgt.doClose (t : ScriptTgt) : ScriptTgt × Res :=
  (recvClose t, t.onClose)

/-- The `Tgt` interface of script targets. -/
def scriptTgt : Tgt ScriptTgt :=
  ⟨ScriptTgt.doSend, ScriptTgt.doFail, ScriptTgt.doClose⟩

/-! ## Default stage

`pipefilter` wraps a plain filter generator
(`while True: item = (yield); target.send(g(item))`) in
`propagate_exceptions` with `"target"` bound in `kwargs`.  The three
operations below are the caller-visible behaviour of the resulting
generator, traced from `propagate_exceptions` (lines 179-237 of the
source), as a transformer over the downstream target interface. -/

/-- `send` on a default stage with transform `g`.  Dead generator: raises
`StopIteration`.  Live: the inner filter calls `target.send (g v)`; if the
downstream raises `StopIteration` the `except StopIteration: break` of the
PEP-380 loop ends the wrapper quietly; if it raises an ordinary error the
`except Exception` clause forwards it to the downstream target by `throw`
(result ignored by the bare `except: pass`) and re-raises. -/
def dsSend (T : Tgt τ) (g : Val → Val) : GenSt × τ → Val → (GenSt × τ) × Res
  | (GenSt.dead, d), _ => ((GenSt.dead, d), Res.raised Exc.stopIt)
  | (GenSt.live, d), v =>
    match T.send d (g v) with
    | (d', Res.ok) => ((GenSt.live, d'), Res.ok)
    | (d', Res.raised Exc.stopIt) => ((GenSt.dead, d'), Res.raised Exc.stopIt)
    | (d', Res.raised (Exc.err n)) =>
      let p := T.fail d' (Exc.err n)
      ((GenSt.dead, p.1), Res.raised (Exc.err n))

/-- `throw` on a default stage.  Dead generator: re-raises the thrown
exception.  Live: the inner filter does not catch, so the exception comes
back out of `it.throw`; a `StopIteration` hits `except StopIteration:
break` (no forwarding); an ordinary exception hits `except Exception`,
which forwards `throw e` to the downstream target, ignores whatever that
call does (`except: pass`), and re-raises `e`. -/
def dsFail (T : Tgt τ) : GenSt × τ → Exc → (GenSt × τ) × Res
  | (GenSt.dead, d), e => ((GenSt.dead, d), Res.raised e)
  | (GenSt.live, d), Exc.stopIt => ((GenSt.dead, d), Res.raised Exc.stopIt)
  | (GenSt.live, d), Exc.err n =>
    let p := T.fail d (Exc.err n)
    ((GenSt.dead, p.1), Res.raised (Exc.err n))

/-- `close` on a default stage.  Dead generator: no-op.  Live: the
`except GeneratorExit` handler of `propagate_exceptions` closes the inner
generator (which has no cleanup) and then calls `kwargs["target"].close()`
with no exception handler around it, so an exception raised by the
downstream teardown escapes to the caller of `close`. -/
def dsClose (T : Tgt τ) : GenSt × τ → (GenSt × τ) × Res
  | (GenSt.dead, d) => ((GenSt.dead, d), Res.ok)
  | (GenSt.live, d) =>
    let p := T.close d
    ((GenSt.dead, p.1), p.2)

/-! ## Broadcast stage

`broadcast(*targets)` (lines 415-448).  The targets are positional
arguments, so `propagate_exceptions` has no `"target"` in `kwargs` and the
wrapper neither forwards failures nor closes anything itself. -/

/-- The notification loop of `broadcast`: `for ex_target in targets:`
throw `e` into each target (skipping the one at index `skip`, the
`target != ex_target` identity test), with `except StopIteration: pass`
as the only tolerance.  Any other exception raised by a notification
aborts the loop and propagates (`some e2` in the result); `none` means
the loop ran to completion. -/
def bNotify (T : Tgt τ) (e : Exc) (skip : Option Nat) : Nat → List τ → List τ × Option Exc
  | _, [] => ([], none)
  | j, t :: ts =>
    if skip = some j then
      let p := bNotify T e skip (j + 1) ts
      (t :: p.1, p.2)
    else
      match T.fail t e with
      | (t', Res.ok) =>
        let p := bNotify T e skip (j + 1) ts
        (t' :: p.1, p.2)
      | (t', Res.raised Exc.stopIt) =>
        let p := bNotify T e skip (j + 1) ts
        (t' :: p.1, p.2)
      | (t', Res.raised (Exc.err m)) => (t' :: ts, some (Exc.err m))

/-- The delivery loop of `broadcast.send`: `for target in targets:
target.send(item)` until the first target whose `send` raises; returns the
updated prefix (the failing target included) with the index of the failing
target and the exception, or `none` if every delivery succeeded. -/
def bSendFrom (T : Tgt τ) (v : Val) : List τ → List τ × Option (Nat × Exc)
  | [] => ([], none)
  | t :: ts =>
    match T.send t v with
    | (t', Res.ok) =>
      let p := bSendFrom T v ts
      (t' :: p.1, p.2.map (fun q => (q.1 + 1, q.2)))
    | (t', Res.raised e) => (t' :: ts, some (0, e))

/-- `send` on the broadcast stage (lines 434-445): deliver the item to
each target in order; on the first failure, run the notification loop
over all the other targets and re-raise (the notification loop's own
escaping exception replaces the re-raise when it aborts). -/
def bSend (T : Tgt τ) : GenSt × List τ → Val → (GenSt × List τ) × Res
  | (GenSt.dead, ts), _ => ((GenSt.dead, ts), Res.raised Exc.stopIt)
  | (GenSt.live, ts), v =>
    match bSendFrom T v ts with
    | (ts', none) => ((GenSt.live, ts'), Res.ok)
    | (ts', some (i, e)) =>
      match bNotify T e (some i) 0 ts' with
      | (ts2, none) => ((GenSt.dead, ts2), Res.raised e)
      | (ts2, some e2) => ((GenSt.dead, ts2), Res.raised e2)

/-- `throw` on the broadcast stage (lines 421-432): throw the exception
into every target in order (`except StopIteration: pass` tolerance only),
then re-raise. -/
def bFail (T : Tgt τ) : GenSt × List τ → Exc → (GenSt × List τ) × Res
  | (GenSt.dead, ts), e => ((GenSt.dead, ts), Res.raised e)
  | (GenSt.live, ts), e =>
    match bNotify T e none 0 ts with
    | (ts', none) => ((GenSt.dead, ts'), Res.raised e)
    | (ts', some e2) => ((GenSt.dead, ts'), Res.raised e2)

/-- The teardown loop of `broadcast.close` (lines 446-448):
`for target in targets: target.close()` with no exception handling; the
first close that raises aborts the loop and its exception propagates. -/
def bCloseLoop (T : Tgt τ) : List τ → List τ × Option Exc
  | [] => ([], none)
  | t :: ts =>
    match T.close t with
    | (t', Res.ok) =>
      let p := bCloseLoop T ts
      (t' :: p.1, p.2)
    | (t', Res.raised e) => (t' :: ts, some e)

/-- `close` on the broadcast stage: dead generator is a no-op; live:
run the teardown loop; an exception from a target's close escapes through
`propagate_exceptions` (no `"target"` kwarg) to the caller of `close`. -/
def bClose (T : Tgt τ) : GenSt × List τ → (GenSt × List τ) × Res
  | (GenSt.dead, ts) => ((GenSt.dead, ts), Res.ok)
  | (GenSt.live, ts) =>
    match bCloseLoop T ts with
    | (ts', none) => ((GenSt.dead, ts'), Res.ok)
    | (ts', some e) => ((GenSt.dead, ts'), Res.raised e)

/-! ### Concrete script targets used in counterexamples and witnesses -/

/-- A quiet target: accepts everything, logs it, never raises. -/
def okTgt : ScriptTgt :=
  { log := [], onSend := Res.ok, onFail := FailResp.yielded, onClose := Res.ok }

/-- A target whose `send` raises the ordinary error 5. -/
def failingSendTgt : ScriptTgt :=
  { okTgt with onSend := Res.raised (Exc.err 5) }

/-- A target that re-raises anything thrown into it, as a default stage
and an already-terminated generator both do. -/
def reraisingTgt : ScriptTgt :=
  { okTgt with onFail := FailResp.reraise }

/-- A target that answers `throw` with `StopIteration`. -/
def stoppingTgt : ScriptTgt :=
  { okTgt with onFail := FailResp.stopped }

/-- A target whose teardown (`close`) raises the ordinary error 7. -/
def badCloseTgt : ScriptTgt :=
  { okTgt with onClose := Res.raised (Exc.err 7) }

/-- A target tolerates the failure `e` thrown into it when the thrower
sees either a normal yield or `StopIteration` — the two outcomes that
`broadcast`'s notification loops survive. -/
def tolerates (e : Exc) (t : ScriptTgt) : Prop :=
  t.onFail.toRes e = Res.ok ∨ t.onFail.toRes e = Res.raised Exc.stopIt

instance (e : Exc) (t : ScriptTgt) : Decidable (tolerates e t) := by
  unfold tolerates; infer_instance

/-! ## Iterator bridge (`iter_filter`, lines 317-392, generator branch)

The wrapped pull routine runs in a greenlet (`g_consume`, built from
`run_target_generator` over `generator()`).  Viewed from the primary, the
greenlet is a state machine `Consumer`: the primary switches a `GIn` in
and observes a `GOut` out at the greenlet's next suspension point.

* `GIn.item v`: `g_consume.switch(item)` — the pending pull in
  `generator()` returns `v` to the routine.
* `GIn.closeSig`: `g_consume.switch(e)` with a `GeneratorExit` instance —
  the pending pull makes `generator()` return, so the routine's input
  iterator ends.
* `GIn.unit`: the bare `g_consume.switch()` of the forwarding loop.
* `GOut.out b`: the routine yielded the value `b`
  (`run_target_generator` switches it to the parent).
* `GOut.sent`: the routine pulled again — `generator()` switched the
  reserved sentinel object to the parent.
* `GOut.raiseE n`: the routine raised an ordinary exception, which
  greenlet propagates to the parent at its switch call.
* `GOut.dead`: the greenlet finished; the parent's switch returns an
  empty tuple. -/

/-- Values the primary passes into the bridge greenlet. -/
inductive GIn where
  | item (v : Val)
  | closeSig
  | unit
deriving DecidableEq, Repr

/-- Values the primary observes at the greenlet's next suspension. -/
inductive GOut where
  | out (b : Val)
  | sent
  | raiseE (n : Nat)
  | dead
deriving DecidableEq, Repr

/-- The bridge greenlet (wrapped pull routine plus its `generator()`
input adapter) as a resumable state machine with state type `σ`. -/
structure Consumer (σ : Type) where
  step : σ → GIn → σ × GOut

/-- The forwarding loop of `iter_filter` (lines 370-373):
`while value is not sentinel: target.send(value); value =
g_consume.switch()`.  Fueled because the wrapped routine could yield
forever; `none` marks fuel exhaustion.  `GOut.dead` is also mapped to
`none`: a dead greenlet's switch keeps returning an empty tuple, which is
never the sentinel, so the Python loop would not terminate.  A result
`some (s, d, some e)` means the loop was cut short by the exception `e`
(raised either by the routine or by a downstream `send`). -/
def feedLoop (c : Consumer σ) (T : Tgt τ) : Nat → σ → τ → GOut → Option (σ × τ × Option Exc)
  | _, s, d, GOut.sent => some (s, d, none)
  | _, s, d, GOut.raiseE n => some (s, d, some (Exc.err n))
  | _, _, _, GOut.dead => none
  | 0, _, _, GOut.out _ => none
  | Nat.succ fuel, s, d, GOut.out b =>
    match T.send d b with
    | (d', Res.ok) =>
      match c.step s GIn.unit with
      | (s', o') => feedLoop c T fuel s' d' o'
    | (d', Res.raised e) => some (s, d', some e)

/-- `send` on an iterator-bridge stage: resume the greenlet with the item
(line 367) and run the forwarding loop.  If an ordinary exception escapes
the loop, the `propagate_exceptions` wrapper (which does have `"target"`
in `kwargs` here) forwards it downstream as a `throw` and re-raises; a
`StopIteration` ends the wrapper quietly. -/
def bridgeSend (c : Consumer σ) (T : Tgt τ) (fuel : Nat) :
    GenSt × σ × τ → Val → Option ((GenSt × σ × τ) × Res)
  | (GenSt.dead, s, d), _ => some ((GenSt.dead, s, d), Res.raised Exc.stopIt)
  | (GenSt.live, s, d), v =>
    match c.step s (GIn.item v) with
    | (s1, o) =>
      match feedLoop c T fuel s1 d o with
      | none => none
      | some (s2, d2, none) => some ((GenSt.live, s2, d2), Res.ok)
      | some (s2, d2, some Exc.stopIt) => some ((GenSt.dead, s2, d2), Res.raised Exc.stopIt)
      | some (s2, d2, some (Exc.err n)) =>
        let p := T.fail d2 (Exc.err n)
        some ((GenSt.dead, s2, p.1), Res.raised (Exc.err n))

/-- `close` on an iterator-bridge stage (lines 374-375): switch the
`GeneratorExit` instance into the greenlet exactly once and ignore
whatever comes back — any value the routine still produces is discarded
and the greenlet is abandoned.  Then the `propagate_exceptions` wrapper
closes the downstream target.  Only if the routine itself raises at that
single switch does the exception propagate (forwarded downstream as a
`throw`, then re-raised), in which case the downstream `close` never
happens. -/
def bridgeClose (c : Consumer σ) (T : Tgt τ) : GenSt × σ × τ → (GenSt × σ × τ) × Res
  | (GenSt.dead, s, d) => ((GenSt.dead, s, d), Res.ok)
  | (GenSt.live, s, d) =>
    match c.step s GIn.closeSig with
    | (s', GOut.raiseE n) =>
      let p := T.fail d (Exc.err n)
      ((GenSt.dead, s', p.1), Res.raised (Exc.err n))
    | (s', _) =>
      let p := T.close d
      ((GenSt.dead, s', p.1), p.2)

/-- Deliver a list of items to a bridge stage one by one, requiring each
delivery to succeed. -/
def bridgeFeed (c : Consumer σ) (T : Tgt τ) (fuel : Nat) :
    List Val → GenSt × σ × τ → Option (GenSt × σ × τ)
  | [], st => some st
  | v :: vs, st =>
    match bridgeSend c T fuel st v with
    | some (st', Res.ok) => bridgeFeed c T fuel vs st'
    | _ => none

/-- The output batch a consumer produces in response to one pulled item
before pulling again: repeatedly resume with `GIn.unit` while outputs
come, stopping at the sentinel.  `none` if the batch is not a clean
output run within the fuel. -/
def consRunAux (c : Consumer σ) : Nat → σ → GOut → Option (List Val × σ)
  | _, s, GOut.sent => some ([], s)
  | Nat.succ fuel, s, GOut.out b =>
    match c.step s GIn.unit with
    | (s', o') =>
      match consRunAux c fuel s' o' with
      | some (bs, s2) => some (b :: bs, s2)
      | none => none
  | _, _, _ => none

/-- The output batch a consumer produces for the item `v` from state `s`. -/
def consRun (c : Consumer σ) (fuel : Nat) (s : σ) (v : Val) : Option (List Val × σ) :=
  match c.step s (GIn.item v) with
  | (s1, o) => consRunAux c fuel s1 o

/-- State of the pass-through pull routine (`for x in it: yield x`):
suspended at its pull (`waiting`), suspended at its yield (`emitted`), or
finished (`doneSt`). -/
inductive PTSt where
  | waiting
  | emitted
  | doneSt
deriving DecidableEq, Repr

/-- The pass-through pull routine as a bridge consumer: each pulled item
is yielded back unchanged, then the routine pulls again; on the close
signal its input iterator ends, the routine returns and the greenlet
dies. -/
def passThrough : Consumer PTSt :=
  ⟨fun s i =>
    match s, i with
    | PTSt.waiting, GIn.item v => (PTSt.emitted, GOut.out v)
    | PTSt.emitted, GIn.unit => (PTSt.waiting, GOut.sent)
    | PTSt.waiting, GIn.closeSig => (PTSt.doneSt, GOut.dead)
    | _, _ => (PTSt.doneSt, GOut.dead)⟩

/-- A pull routine that, when its input iterator ends, still yields one
more value (42) from its cleanup before finishing — used to check that
post-close outputs are discarded. -/
def cleanupEmitter : Consumer Unit :=
  ⟨fun _ i =>
    match i with
    | GIn.closeSig => ((), GOut.out 42)
    | _ => ((), GOut.sent)⟩

/-! ## Specs, composition and resolution (`PipeSource`, `Pipe`,
`PipeElement`, lines 240-314) and the concrete stages of the end-to-end
scenario.

A closed world of bound stages `BSt` is used here so that resolution can
be stated as a first-order function: a chain of default filters
(`filtSt`), append-style filters with a `GeneratorExit` cleanup that
sends one last value (`appSt`, the docstring's `append`), and the
`appender` collecting sink (`sinkSt`).  `noTgt` stands for an unbound
downstream target (the routine's `target=None`); the `appender` sink is
modelled in its sink role only, without the optional forwarding target it
never uses in the claims. -/

/-- Bound stages: a resolved chain of generators. -/
inductive BSt where
  | noTgt
  | sinkSt (st : GenSt) (acc : List Val)
  | filtSt (g : Val → Val) (st : GenSt) (down : BSt)
  | appSt (last : Val) (st : GenSt) (down : BSt)

/-- `throw` on a bound chain.  Same caller-visible behaviour as `dsFail`
at every generator of the chain; `noTgt` absorbs the call (a stage
resolved without a target has no `"target"` in `kwargs`, so
`propagate_exceptions` forwards nothing — the absorbed call is
unobservable). -/
def bstFail : BSt → Exc → BSt × Res
  | BSt.noTgt, e => (BSt.noTgt, Res.raised e)
  | BSt.sinkSt GenSt.dead acc, e => (BSt.sinkSt GenSt.dead acc, Res.raised e)
  | BSt.sinkSt GenSt.live acc, e => (BSt.sinkSt GenSt.dead acc, Res.raised e)
  | BSt.filtSt g GenSt.dead d, e => (BSt.filtSt g GenSt.dead d, Res.raised e)
  | BSt.filtSt g GenSt.live d, Exc.stopIt => (BSt.filtSt g GenSt.dead d, Res.raised Exc.stopIt)
  | BSt.filtSt g GenSt.live d, Exc.err n =>
    let p := bstFail d (Exc.err n)
    (BSt.filtSt g GenSt.dead p.1, Res.raised (Exc.err n))
  | BSt.appSt l GenSt.dead d, e => (BSt.appSt l GenSt.dead d, Res.raised e)
  | BSt.appSt l GenSt.live d, Exc.stopIt => (BSt.appSt l GenSt.dead d, Res.raised Exc.stopIt)
  | BSt.appSt l GenSt.live d, Exc.err n =>
    let p := bstFail d (Exc.err n)
    (BSt.appSt l GenSt.dead p.1, Res.raised (Exc.err n))

/-- `send` on a bound chain: the behaviour of `dsSend` at each filter
(the `append` filter forwards items unchanged), with the `appender` sink
accumulating items.  Sending to an unbound target is the
`AttributeError` of calling `.send` on `None` (modelled as the ordinary
error `1000`). -/
def bstSend : BSt → Val → BSt × Res
  | BSt.noTgt, _ => (BSt.noTgt, Res.raised (Exc.err 1000))
  | BSt.sinkSt GenSt.dead acc, _ => (BSt.sinkSt GenSt.dead acc, Res.raised Exc.stopIt)
  | BSt.sinkSt GenSt.live acc, v => (BSt.sinkSt GenSt.live (acc ++ [v]), Res.ok)
  | BSt.filtSt g GenSt.dead d, _ => (BSt.filtSt g GenSt.dead d, Res.raised Exc.stopIt)
  | BSt.filtSt g GenSt.live d, v =>
    match bstSend d (g v) with
    | (d', Res.ok) => (BSt.filtSt g GenSt.live d', Res.ok)
    | (d', Res.raised Exc.stopIt) => (BSt.filtSt g GenSt.dead d', Res.raised Exc.stopIt)
    | (d', Res.raised (Exc.err n)) =>
      let p := bstFail d' (Exc.err n)
      (BSt.filtSt g GenSt.dead p.1, Res.raised (Exc.err n))
  | BSt.appSt l GenSt.dead d, _ => (BSt.appSt l GenSt.dead d, Res.raised Exc.stopIt)
  | BSt.appSt l GenSt.live d, v =>
    match bstSend d v with
    | (d', Res.ok) => (BSt.appSt l GenSt.live d', Res.ok)
    | (d', Res.raised Exc.stopIt) => (BSt.appSt l GenSt.dead d', Res.raised Exc.stopIt)
    | (d', Res.raised (Exc.err n)) =>
      let p := bstFail d' (Exc.err n)
      (BSt.appSt l GenSt.dead p.1, Res.raised (Exc.err n))

/-- Depth of a bound chain: the number of generators stacked on top of
the (possibly absent) terminal sink.  Protocol calls update the states
inside a chain but never its shape, so depth is the termination measure
for the teardown cascade. -/
def BSt.depth : BSt → Nat
  | BSt.noTgt => 0
  | BSt.sinkSt _ _ => 1
  | BSt.filtSt _ _ d => d.depth + 1
  | BSt.appSt _ _ d => d.depth + 1

/-- Throwing into a chain preserves its shape. -/
lemma bstFail_depth : ∀ (s : BSt) (e : Exc), (bstFail s e).1.depth = s.depth := by
  intro s
  induction s with
  | noTgt => intro e; rfl
  | sinkSt st acc => intro e; cases st <;> rfl
  | filtSt g st d ih =>
    intro e
    cases st with
    | dead => rfl
    | live =>
      cases e with
      | stopIt => rfl
      | err n => simp [bstFail, BSt.depth, ih]
  | appSt l st d ih =>
    intro e
    cases st with
    | dead => rfl
    | live =>
      cases e with
      | stopIt => rfl
      | err n => simp [bstFail, BSt.depth, ih]

/-- Delivering to a chain preserves its shape. -/
lemma bstSend_depth : ∀ (s : BSt) (v : Val), (bstSend s v).1.depth = s.depth := by
  intro s
  induction s with
  | noTgt => intro v; rfl
  | sinkSt st acc => intro v; cases st <;> rfl
  | filtSt g st d ih =>
    intro v
    cases st with
    | dead => rfl
    | live =>
      simp only [bstSend]
      rcases h : bstSend d (g v) with ⟨d', r⟩
      have hd : d'.depth = d.depth := by
        have := ih (g v); rw [h] at this; exact this
      cases r with
      | ok => simp [BSt.depth, hd]
      | raised e =>
        cases e with
        | stopIt => simp [BSt.depth, hd]
        | err n => simp [BSt.depth, hd, bstFail_depth]
  | appSt l st d ih =>
    intro v
    cases st with
    | dead => rfl
    | live =>
      simp only [bstSend]
      rcases h : bstSend d v with ⟨d', r⟩
      have hd : d'.depth = d.depth := by
        have := ih v; rw [h] at this; exact this
      cases r with
      | ok => simp [BSt.depth, hd]
      | raised e =>
        cases e with
        | stopIt => simp [BSt.depth, hd]
        | err n => simp [BSt.depth, hd, bstFail_depth]

/-- `close` on a bound chain, fueled: each live filter closes its
downstream and propagates any teardown exception (`dsClose`); a live
`append` filter first runs its `except GeneratorExit` cleanup, sending
`last` downstream, before the wrapper closes the downstream target; if
that cleanup send raises, the exception is forwarded downstream as a
`throw` and re-raised, and the downstream `close` never happens.  The
fuel is the chain depth below the current generator; since protocol calls
preserve the chain's shape (`bstSend_depth`, `bstFail_depth`), the
zero-fuel fallbacks for a live generator are unreachable when the fuel is
the state's own depth, as in `bstClose`. -/
def bstCloseAux : BSt → Nat → BSt × Res
  | BSt.noTgt, _ => (BSt.noTgt, Res.ok)
  | BSt.sinkSt _ acc, _ => (BSt.sinkSt GenSt.dead acc, Res.ok)
  | BSt.filtSt g GenSt.dead d, _ => (BSt.filtSt g GenSt.dead d, Res.ok)
  | BSt.filtSt g GenSt.live d, Nat.succ n =>
    let p := bstCloseAux d n
    (BSt.filtSt g GenSt.dead p.1, p.2)
  | BSt.filtSt g GenSt.live d, 0 => (BSt.filtSt g GenSt.live d, Res.ok)
  | BSt.appSt l GenSt.dead d, _ => (BSt.appSt l GenSt.dead d, Res.ok)
  | BSt.appSt l GenSt.live d, Nat.succ n =>
    let q := bstSend d l
    match q.2 with
    | Res.ok =>
      let p := bstCloseAux q.1 n
      (BSt.appSt l GenSt.dead p.1, p.2)
    | Res.raised e =>
      let p := bstFail q.1 e
      (BSt.appSt l GenSt.dead p.1, Res.raised e)
  | BSt.appSt l GenSt.live d, 0 => (BSt.appSt l GenSt.live d, Res.ok)

/-- `close` on a bound chain: run the teardown cascade with the chain's
depth as fuel (always sufficient, see `bstCloseAux`). -/
def bstClose (s : BSt) : BSt × Res := bstCloseAux s s.depth

/-- The processing routine plus positional configuration of a stage
descriptor. -/
inductive StageKind where
  | filt (g : Val → Val)
  | app (last : Val)
  | sink

/-- A `PipeElement`: the stage descriptor produced by `pipefilter`.
`kwTarget` is the `"target"` entry of its stored `kwargs` dictionary. -/
structure PElem where
  kind : StageKind
  kwTarget : Option BSt

/-- Construct the bound generator for a descriptor from its (possibly
bound) keyword target — the `self.fn(*self.args, **self.kwargs)` call,
advanced to its first yield by the `coroutine` decorator. -/
def mkStage : StageKind → BSt → BSt
  | StageKind.filt g, d => BSt.filtSt g GenSt.live d
  | StageKind.app last, d => BSt.appSt last GenSt.live d
  | StageKind.sink, _ => BSt.sinkSt GenSt.live []

/-- `PipeElement.resolve` (lines 295-302): if a target is supplied, store
it into the descriptor's `kwargs` (`self.kwargs["target"] = target` — an
in-place mutation of the descriptor), then build the bound generator from
the stored configuration. -/
def PElem.resolveEl (p : PElem) (t : Option BSt) : PElem × BSt :=
  let p' :=
    match t with
    | some tg => { p with kwTarget := some tg }
    | none => p
  (p', mkStage p'.kind (p'.kwTarget.getD BSt.noTgt))

/-- An unresolved pipeline: a `PipeElement` leaf or a `Pipe` composite. -/
inductive PTree where
  | el (p : PElem)
  | pipe (l r : PTree)

/-- `Pipe.resolve` / `PipeElement.resolve` over a tree (lines 263-268):
a composite resolves its right side with the supplied target, then its
left side with the resolved right stage as target, and is bound to the
resolved left stage.  The returned tree carries the descriptors' mutated
`kwargs`. -/
def PTree.resolveT : PTree → Option BSt → PTree × BSt
  | PTree.el p, t =>
    let q := p.resolveEl t
    (PTree.el q.1, q.2)
  | PTree.pipe l r, t =>
    let qr := r.resolveT t
    let ql := l.resolveT (some qr.2)
    (PTree.pipe ql.1 qr.1, ql.2)

/-- `Pipe.send` before resolution: resolve, then delegate to the bound
stage (`self.send = fn.send`). -/
def PTree.sendP (p : PTree) (t : Option BSt) (v : Val) : BSt × Res :=
  bstSend (p.resolveT t).2 v

/-- `Pipe.throw` before resolution: resolve, then delegate. -/
def PTree.failP (p : PTree) (t : Option BSt) (e : Exc) : BSt × Res :=
  bstFail (p.resolveT t).2 e

/-- `Pipe.close` before resolution: resolve, then delegate. -/
def PTree.closeP (p : PTree) (t : Option BSt) : BSt × Res :=
  bstClose (p.resolveT t).2

/-- The contents of the `appender` sink's output list at the bottom of a
bound chain. -/
def collected : BSt → List Val
  | BSt.noTgt => []
  | BSt.sinkSt _ acc => acc
  | BSt.filtSt _ _ d => collected d
  | BSt.appSt _ _ d => collected d

/-- The delivery loop of `iter_source` (lines 402-404): send each value
until one delivery raises. -/
def sendSeqB : List Val → BSt → BSt × Option Exc
  | [], s => (s, none)
  | v :: vs, s =>
    match bstSend s v with
    | (s', Res.ok) => sendSeqB vs s'
    | (s', Res.raised e) => (s', some e)

/-- `iter_source(values, target)` (lines 398-412): push every value; on a
delivery failure, throw the exception into the target (tolerating only
`StopIteration`) and re-raise; on normal exhaustion, close the target
(whose teardown exception would propagate). -/
def iterSourceRunB (vs : List Val) (s : BSt) : BSt × Res :=
  match sendSeqB vs s with
  | (s', none) => bstClose s'
  | (s', some e) =>
    match bstFail s' e with
    | (s2, Res.ok) => (s2, Res.raised e)
    | (s2, Res.raised Exc.stopIt) => (s2, Res.raised e)
    | (s2, Res.raised (Exc.err n)) => (s2, Res.raised (Exc.err n))

/-- `PipeSource.__or__` (lines 246-249): run the source function with the
pipeline as target, then call `other.close()` once more (a second,
idempotent close of the whole chain) when the source returned normally. -/
def pipeSourceOrB (vs : List Val) (s : BSt) : BSt × Res :=
  match iterSourceRunB vs s with
  | (s', Res.ok) => bstClose s'
  | (s', Res.raised e) => (s', Res.raised e)

/-- The end-to-end scenario pipeline `append(99) | double() | appender`. -/
def c8Tree : PTree :=
  PTree.pipe
    (PTree.pipe (PTree.el ⟨StageKind.app 99, none⟩)
      (PTree.el ⟨StageKind.filt (fun v => v * 2), none⟩))
    (PTree.el ⟨StageKind.sink, none⟩)

/-! ## Basic simp lemmas about script targets -/

@[simp] lemma scriptTgt_send (t : ScriptTgt) (v : Val) :
    scriptTgt.send t v = (recvSend v t, t.onSend) := rfl

@[simp] lemma scriptTgt_fail (t : ScriptTgt) (e : Exc) :
    scriptTgt.fail t e = (recvFail e t, t.onFail.toRes e) := rfl

@[simp] lemma scriptTgt_close (t : ScriptTgt) :
    scriptTgt.close t = (recvClose t, t.onClose) := rfl

@[simp] lemma recvSend_onSend (v : Val) (t : ScriptTgt) :
    (recvSend v t).onSend = t.onSend := rfl

@[simp] lemma recvSend_onFail (v : Val) (t : ScriptTgt) :
    (recvSend v t).onFail = t.onFail := rfl

@[simp] lemma recvSend_onClose (v : Val) (t : ScriptTgt) :
    (recvSend v t).onClose = t.onClose := rfl

@[simp] lemma recvFail_onClose (e : Exc) (t : ScriptTgt) :
    (recvFail e t).onClose = t.onClose := rfl

@[simp] lemma recvSend_log (v : Val) (t : ScriptTgt) :
    (recvSend v t).log = t.log ++ [Call.send v] := rfl

@[simp] lemma recvFail_log (e : Exc) (t : ScriptTgt) :
    (recvFail e t).log = t.log ++ [Call.fail e] := rfl

@[simp] lemma recvClose_log (t : ScriptTgt) :
    (recvClose t).log = t.log ++ [Call.close] := rfl

/-! ## Claims -/

/-- Claim C2 (confirmed): a default stage with a bound downstream target
reacts to `fail(error)` by forwarding exactly one `fail(error)` call to
the downstream target — whatever the downstream answers, an
already-terminated re-raise included, is ignored — and then re-raises the
same error to its own caller, terminating itself.  `d` ranges over every
possible downstream behaviour. -/
theorem claim_C2_default_fail_forwarding (d : ScriptTgt) (n : Nat) :
    dsFail scriptTgt (GenSt.live, d) (Exc.err n) =
      ((GenSt.dead, recvFail (Exc.err n) d), Res.raised (Exc.err n)) := rfl

/-- Claim C4, counterexample: after `fail(err 3)` was delivered to a live
default stage (and re-raised, i.e. not recovered), a subsequent
`finalize()` raises nothing but forwards nothing either — the downstream
target's log holds only the forwarded `fail` and zero `close` calls,
contradicting the claimed "finalize still reaches every downstream target
exactly once". -/
theorem claim_C4_counterexample :
    (dsClose scriptTgt (dsFail scriptTgt (GenSt.live, okTgt) (Exc.err 3)).1).1.2.log
        = [Call.fail (Exc.err 3)]
    ∧ ((dsClose scriptTgt (dsFail scriptTgt (GenSt.live, okTgt) (Exc.err 3)).1).1.2.log.count
        Call.close) = 0
    ∧ (dsClose scriptTgt (dsFail scriptTgt (GenSt.live, okTgt) (Exc.err 3)).1).2 = Res.ok := by
  decide

/-- Claim C4, amended: an unrecovered `fail` terminates the stage, so a
subsequent `finalize()` is a silent no-op — it raises no error but
forwards `finalize` to zero downstream targets (downstream consumers were
informed by the forwarded `fail` itself, not by a finalize cascade).
This holds for default stages and for the broadcast stage. -/
theorem claim_C4_amended :
    (∀ (d : ScriptTgt) (n : Nat),
        dsClose scriptTgt (dsFail scriptTgt (GenSt.live, d) (Exc.err n)).1 =
          ((dsFail scriptTgt (GenSt.live, d) (Exc.err n)).1, Res.ok))
    ∧ (∀ (ts : List ScriptTgt) (e : Exc),
        bClose scriptTgt (bFail scriptTgt (GenSt.live, ts) e).1 =
          ((bFail scriptTgt (GenSt.live, ts) e).1, Res.ok)) := by
  constructor
  · intro d n; rfl
  · intro ts e
    rcases h : bNotify scriptTgt e none 0 ts with ⟨ts', r⟩
    cases r <;> simp [bFail, bClose, h]

/-- Claim C5 (confirmed): resolving a composite with an optional terminal
target resolves the right side with that target, yielding `R`, then the
left side with `R` as its target, yielding `L`; and the composite's own
deliver/fail/finalize operations delegate to `L`. -/
theorem claim_C5_composite_resolution (l r : PTree) (t : Option BSt) :
    ((PTree.pipe l r).resolveT t).2 = (l.resolveT (some ((r.resolveT t).2))).2
    ∧ (∀ v, (PTree.pipe l r).sendP t v =
        bstSend ((l.resolveT (some ((r.resolveT t).2))).2) v)
    ∧ (∀ e, (PTree.pipe l r).failP t e =
        bstFail ((l.resolveT (some ((r.resolveT t).2))).2) e)
    ∧ (PTree.pipe l r).closeP t =
        bstClose ((l.resolveT (some ((r.resolveT t).2))).2) :=
  ⟨rfl, fun _ => rfl, fun _ => rfl, rfl⟩

/-- Claim C6 (confirmed): for every modelled stage kind — default stage,
broadcast, iterator bridge, and any resolved chain — a second
`finalize()` after a first one raises no error, changes nothing, and in
particular forwards no second `finalize()` downstream (the state,
including every downstream log, is returned unchanged). -/
theorem claim_C6_finalize_idempotent :
    (∀ (st : GenSt × ScriptTgt),
        dsClose scriptTgt (dsClose scriptTgt st).1 = ((dsClose scriptTgt st).1, Res.ok))
    ∧ (∀ (bst : GenSt × List ScriptTgt),
        bClose scriptTgt (bClose scriptTgt bst).1 = ((bClose scriptTgt bst).1, Res.ok))
    ∧ (∀ (σ : Type) (c : Consumer σ) (st : GenSt × σ × ScriptTgt),
        bridgeClose c scriptTgt (bridgeClose c scriptTgt st).1 =
          ((bridgeClose c scriptTgt st).1, Res.ok))
    ∧ (∀ (s : BSt), bstClose (bstClose s).1 = ((bstClose s).1, Res.ok)) := by
  refine ⟨?_, ?_, ?_, ?_⟩
  · rintro ⟨g, d⟩
    cases g <;> rfl
  · rintro ⟨g, ts⟩
    cases g with
    | dead => rfl
    | live =>
      rcases h : bCloseLoop scriptTgt ts with ⟨ts', r⟩
      cases r <;> simp [bClose, h]
  · rintro σ c ⟨g, s, d⟩
    cases g with
    | dead => rfl
    | live =>
      rcases h : c.step s GIn.closeSig with ⟨s', o⟩
      cases o <;> simp [bridgeClose, h]
  · intro s
    cases s with
    | noTgt => rfl
    | sinkSt g acc => cases g <;> rfl
    | filtSt g st d => cases st <;> rfl
    | appSt l st d =>
      cases st with
      | dead => rfl
      | live =>
        rcases h : bstSend d l with ⟨d', r⟩
        cases r <;> simp [bstClose, bstCloseAux, BSt.depth, h]

/-- Claim C8 (confirmed): resolving `append(99) | double | appender` and
driving it through `iter_source` with `[0, 1, 2]` (including the second
close performed by `PipeSource.__or__`) leaves exactly `[0, 2, 4, 198]`
in the collecting sink, with no exception escaping. -/
theorem claim_C8_end_to_end :
    collected (pipeSourceOrB [0, 1, 2] (c8Tree.resolveT none).2).1 = [0, 2, 4, 198]
    ∧ (pipeSourceOrB [0, 1, 2] (c8Tree.resolveT none).2).2 = Res.ok :=
  ⟨rfl, rfl⟩

/-- Claim C9, counterexample: resolving a stage descriptor with a
downstream target changes the descriptor's stored keyword configuration
(the source executes `self.kwargs["target"] = target`), contradicting the
claimed immutability. -/
theorem claim_C9_counterexample :
    ((PElem.mk StageKind.sink none).resolveEl (some (BSt.sinkSt GenSt.live []))).1.kwTarget
      ≠ (PElem.mk StageKind.sink none).kwTarget := by
  intro h
  exact Option.noConfusion h

/-- Claim C9, amended: the descriptor's processing routine and positional
configuration are never modified, and resolving with no supplied target
leaves the descriptor unchanged; but resolving with a target `tg` mutates
the descriptor's keyword configuration, storing `tg` under the key
`"target"` (and changes nothing else). -/
theorem claim_C9_amended (p : PElem) (tg : BSt) :
    (p.resolveEl none).1 = p
    ∧ (p.resolveEl (some tg)).1 = { p with kwTarget := some tg }
    ∧ ((p.resolveEl (some tg)).1).kind = p.kind :=
  ⟨rfl, rfl, rfl⟩

/-- Claim C3, counterexample: `finalize()` can raise.  A default stage
whose downstream teardown raises error 7 re-raises it from `finalize()`;
and the broadcast stage aborts its teardown loop at the first target
whose close raises — the second target's log stays empty, so it never
receives `finalize`, contradicting "forwards finalize to every target in
order regardless of failures". -/
theorem claim_C3_counterexample :
    (dsClose scriptTgt (GenSt.live, badCloseTgt)).2 = Res.raised (Exc.err 7)
    ∧ (bClose scriptTgt (GenSt.live, [badCloseTgt, okTgt])).2 = Res.raised (Exc.err 7)
    ∧ ((bClose scriptTgt (GenSt.live, [badCloseTgt, okTgt])).1.2.getD 1 okTgt).log = [] := by
  decide

/-- Claim C1, counterexample: `broadcast` over three targets where the
first target's `deliver` raises error 5 and the second re-raises the
failure thrown into it (exactly what a default stage, or an
already-terminated generator, does).  The notification loop tolerates
only `StopIteration`, so the second target's re-raise aborts it: the
third target receives neither the item nor the promised `fail(error)` —
its log is empty — while the error still propagates to the caller. -/
theorem claim_C1_counterexample :
    ((bSend scriptTgt (GenSt.live, [failingSendTgt, reraisingTgt, okTgt]) 42).1.2.getD 2
        okTgt).log = []
    ∧ (bSend scriptTgt (GenSt.live, [failingSendTgt, reraisingTgt, okTgt]) 42).2 =
        Res.raised (Exc.err 5) := by
  decide

/-! ## Lemmas about the broadcast loops -/

/-- Tolerance is unaffected by logging a received item. -/
lemma tolerates_recvSend (e : Exc) (v : Val) (x : ScriptTgt) :
    tolerates e x → tolerates e (recvSend v x) :=
  fun h => h

/-- The delivery loop delivers to every target before the first failing
one, logs the item at the failing target, touches nothing after it, and
reports the failing index and exception. -/
lemma bSendFrom_split (v : Val) (e : Exc) :
    ∀ (pre : List ScriptTgt) (t : ScriptTgt) (post : List ScriptTgt),
      (∀ x ∈ pre, x.onSend = Res.ok) → t.onSend = Res.raised e →
      bSendFrom scriptTgt v (pre ++ t :: post) =
        (pre.map (recvSend v) ++ recvSend v t :: post, some (pre.length, e)) := by
  intro pre
  induction pre with
  | nil =>
    intro t post _ ht
    simp [bSendFrom, ht]
  | cons x xs ih =>
    intro t post hpre ht
    have hx : x.onSend = Res.ok := hpre x (by simp)
    have hrec := ih t post (fun y hy => hpre y (List.mem_cons_of_mem x hy)) ht
    simp [bSendFrom, hx, hrec]

/-- A segment of all-tolerant targets strictly before the skipped index
is notified in full, and the loop continues past it. -/
lemma bNotify_seg (e : Exc) (k : Nat) :
    ∀ (as rest : List ScriptTgt) (j : Nat),
      (∀ x ∈ as, tolerates e x) → j + as.length ≤ k →
      bNotify scriptTgt e (some k) j (as ++ rest) =
        (as.map (recvFail e) ++ (bNotify scriptTgt e (some k) (j + as.length) rest).1,
          (bNotify scriptTgt e (some k) (j + as.length) rest).2) := by
  intro as
  induction as with
  | nil =>
    intro rest j _ _
    simp
  | cons x xs ih =>
    intro rest j htol hle
    simp only [List.length_cons] at hle
    have hx := htol x (by simp)
    have hne : ¬ ((some k : Option Nat) = some j) := by
      simp only [Option.some.injEq]
      omega
    have hrec := ih rest (j + 1) (fun y hy => htol y (List.mem_cons_of_mem x hy)) (by omega)
    have hlen : j + 1 + xs.length = j + (xs.length + 1) := by omega
    rw [hlen] at hrec
    rcases hx with h1 | h1 <;>
      simp [bNotify, hne, h1, hrec]

/-- The notification loop skips the target at the skipped index. -/
lemma bNotify_at_skip (e : Exc) (k : Nat) (t : ScriptTgt) (rest : List ScriptTgt) :
    bNotify scriptTgt e (some k) k (t :: rest) =
      (t :: (bNotify scriptTgt e (some k) (k + 1) rest).1,
        (bNotify scriptTgt e (some k) (k + 1) rest).2) := by
  simp [bNotify]

/-- Past the skipped index, an all-tolerant tail is notified in full and
the loop completes. -/
lemma bNotify_tail (e : Exc) (k : Nat) :
    ∀ (rest : List ScriptTgt) (j : Nat), (∀ x ∈ rest, tolerates e x) → k < j →
      bNotify scriptTgt e (some k) j rest = (rest.map (recvFail e), none) := by
  intro rest
  induction rest with
  | nil => intro j _ _; rfl
  | cons x xs ih =>
    intro j htol hkj
    have hx := htol x (by simp)
    have hne : ¬ ((some k : Option Nat) = some j) := by
      simp only [Option.some.injEq]
      omega
    have hrec := ih (j + 1) (fun y hy => htol y (List.mem_cons_of_mem x hy)) (by omega)
    rcases hx with h1 | h1 <;> simp [bNotify, hne, h1, hrec]

/-- Claim C1, amended: `deliver(item)` on a broadcast calls the targets
in index order; when `Ti.deliver` raises `e` and — this is the added
hypothesis the counterexample forces — every other target reacts to the
thrown failure by yielding or by `StopIteration`, then every other
target, those before and after `i` alike, receives `fail(e)` in list
order, no target after `i` receives the item, and `e` is re-raised to the
caller.  Without that tolerance hypothesis the notification loop aborts
at the first target whose `fail` raises anything else (which is what an
already-terminated target or a default stage actually does), leaving
later targets un-notified (see the counterexample). -/
theorem claim_C1_amended (pre : List ScriptTgt) (t : ScriptTgt) (post : List ScriptTgt)
    (v : Val) (e : Exc)
    (hpre : ∀ x ∈ pre, x.onSend = Res.ok)
    (ht : t.onSend = Res.raised e)
    (hpreF : ∀ x ∈ pre, tolerates e x)
    (hpostF : ∀ x ∈ post, tolerates e x) :
    bSend scriptTgt (GenSt.live, pre ++ t :: post) v =
      ((GenSt.dead,
        pre.map (fun x => recvFail e (recvSend v x)) ++
          recvSend v t :: post.map (recvFail e)),
        Res.raised e) := by
  have h1 := bSendFrom_split v e pre t post hpre ht
  have hseg := bNotify_seg e pre.length (pre.map (recvSend v)) (recvSend v t :: post) 0
    (fun y hy => by
      rcases List.mem_map.1 hy with ⟨x, hx, rfl⟩
      exact tolerates_recvSend e v x (hpreF x hx))
    (by simp)
  have hskip := bNotify_at_skip e pre.length (recvSend v t) post
  have htail := bNotify_tail e pre.length post (pre.length + 1) hpostF (by omega)
  have hlen : (0 : Nat) + (pre.map (recvSend v)).length = pre.length := by simp
  rw [hlen, hskip, htail] at hseg
  have key : bNotify scriptTgt e (some pre.length) 0
      (pre.map (recvSend v) ++ recvSend v t :: post) =
      (pre.map (fun x => recvFail e (recvSend v x)) ++
        recvSend v t :: post.map (recvFail e), none) := by
    rw [hseg]
    simp [List.map_map, Function.comp]
  simp [bSend, h1, key]

/-- Claim C1, amended, applied at a concrete broadcast: one tolerant
target before the failing one, one after. -/
theorem claim_C1_amended_witness :
    bSend scriptTgt (GenSt.live, [okTgt] ++ failingSendTgt :: [stoppingTgt]) 7 =
      ((GenSt.dead,
        [okTgt].map (fun x => recvFail (Exc.err 5) (recvSend 7 x)) ++
          recvSend 7 failingSendTgt :: [stoppingTgt].map (recvFail (Exc.err 5))),
        Res.raised (Exc.err 5)) :=
  claim_C1_amended [okTgt] failingSendTgt [stoppingTgt] 7 (Exc.err 5)
    (by decide) (by decide) (by decide) (by decide)

/-! ## Lemmas about the broadcast teardown loop -/

/-- A prefix of targets whose teardown succeeds is closed in full and the
loop continues past it. -/
lemma bCloseLoop_ok_seg :
    ∀ (as rest : List ScriptTgt), (∀ x ∈ as, x.onClose = Res.ok) →
      bCloseLoop scriptTgt (as ++ rest) =
        (as.map recvClose ++ (bCloseLoop scriptTgt rest).1, (bCloseLoop scriptTgt rest).2) := by
  intro as
  induction as with
  | nil => intro rest _; simp
  | cons x xs ih =>
    intro rest h
    have hx : x.onClose = Res.ok := h x (by simp)
    simp [bCloseLoop, hx, ih rest (fun y hy => h y (List.mem_cons_of_mem x hy))]

/-- Claim C3, amended: `finalize()` can raise.  A default stage forwards
`finalize` downstream and returns the downstream teardown's outcome to
its own caller, re-raising a teardown exception instead of swallowing it.
The broadcast stage closes its targets in list order only up to and
including the first target whose teardown raises; that exception
propagates to the broadcast's caller and the remaining targets are never
finalized.  (When every teardown succeeds, the broadcast does close every
target in order without raising.) -/
theorem claim_C3_amended :
    (∀ (d : ScriptTgt),
        dsClose scriptTgt (GenSt.live, d) = ((GenSt.dead, recvClose d), d.onClose))
    ∧ (∀ (ts : List ScriptTgt), (∀ x ∈ ts, x.onClose = Res.ok) →
        bClose scriptTgt (GenSt.live, ts) = ((GenSt.dead, ts.map recvClose), Res.ok))
    ∧ (∀ (pre : List ScriptTgt) (t : ScriptTgt) (rest : List ScriptTgt) (e : Exc),
        (∀ x ∈ pre, x.onClose = Res.ok) → t.onClose = Res.raised e →
        bClose scriptTgt (GenSt.live, pre ++ t :: rest) =
          ((GenSt.dead, pre.map recvClose ++ recvClose t :: rest), Res.raised e)) := by
  refine ⟨fun d => rfl, ?_, ?_⟩
  · intro ts h
    have h1 := bCloseLoop_ok_seg ts [] h
    simp only [List.append_nil] at h1
    simp [bClose, h1, bCloseLoop]
  · intro pre t rest e hpre ht
    have h1 := bCloseLoop_ok_seg pre (t :: rest) hpre
    have h2 : bCloseLoop scriptTgt (t :: rest) = (recvClose t :: rest, some e) := by
      simp [bCloseLoop, ht]
    rw [h2] at h1
    simp [bClose, h1]

/-- Claim C3, amended, applied concretely: an all-successful broadcast
teardown and one aborted by its second target. -/
theorem claim_C3_amended_witness :
    bClose scriptTgt (GenSt.live, [okTgt, stoppingTgt]) =
      ((GenSt.dead, [okTgt, stoppingTgt].map recvClose), Res.ok)
    ∧ bClose scriptTgt (GenSt.live, [okTgt] ++ badCloseTgt :: [stoppingTgt]) =
        ((GenSt.dead, [okTgt].map recvClose ++ recvClose badCloseTgt :: [stoppingTgt]),
          Res.raised (Exc.err 7)) :=
  ⟨claim_C3_amended.2.1 [okTgt, stoppingTgt] (by decide),
    claim_C3_amended.2.2 [okTgt] badCloseTgt [stoppingTgt] (Exc.err 7) (by decide) (by decide)⟩

/-! ## Lemmas about the bridge forwarding loop -/

/-- If the wrapped routine's reaction to a pulled item is a clean output
batch `bs` ending at the sentinel, the bridge's forwarding loop delivers
exactly `bs`, in order, to an accepting downstream target. -/
lemma feedLoop_consRunAux {σ : Type} (c : Consumer σ) :
    ∀ (fuel : Nat) (s : σ) (o : GOut) (d : ScriptTgt) (bs : List Val) (s2 : σ),
      d.onSend = Res.ok → consRunAux c fuel s o = some (bs, s2) →
      feedLoop c scriptTgt fuel s d o =
        some (s2, { d with log := d.log ++ bs.map Call.send }, none) := by
  intro fuel
  induction fuel with
  | zero =>
    intro s o d bs s2 hok h
    cases o with
    | sent =>
      simp only [consRunAux, Option.some.injEq, Prod.mk.injEq] at h
      obtain ⟨h1, h2⟩ := h
      subst h1; subst h2
      simp [feedLoop]
    | out b => simp [consRunAux] at h
    | raiseE n => simp [consRunAux] at h
    | dead => simp [consRunAux] at h
  | succ fuel ih =>
    intro s o d bs s2 hok h
    cases o with
    | sent =>
      simp only [consRunAux, Option.some.injEq, Prod.mk.injEq] at h
      obtain ⟨h1, h2⟩ := h
      subst h1; subst h2
      simp [feedLoop]
    | out b =>
      rcases hstep : c.step s GIn.unit with ⟨s', o'⟩
      simp only [consRunAux, hstep] at h
      rcases hrec : consRunAux c fuel s' o' with _ | ⟨bs', s2'⟩
      · rw [hrec] at h; simp at h
      · rw [hrec] at h
        simp only [Option.some.injEq, Prod.mk.injEq] at h
        obtain ⟨h1, h2⟩ := h
        subst h1; subst h2
        have ihh := ih s' o' (recvSend b d) bs' s2' (by simp [hok]) hrec
        simp only [feedLoop, scriptTgt_send, hok, hstep, ihh]
        simp [recvSend, List.append_assoc, hok]
    | raiseE n => simp [consRunAux] at h
    | dead => simp [consRunAux] at h

/-- Claim C7 (confirmed).  Concrete part: the pass-through pull routine
wrapped in the bridge, fed 1, 2, 3 and finalized, makes the downstream
target observe exactly deliver 1, deliver 2, deliver 3 and then one
finalize, in that order.  General part: whatever output batch the wrapped
routine produces for a pulled item before pulling again (ended by the
sentinel) is forwarded downstream, in order, during that same deliver
call. -/
theorem claim_C7_bridge_round_trip {σ : Type} (c : Consumer σ) (fuel : Nat) (s : σ)
    (v : Val) (bs : List Val) (s2 : σ) (d : ScriptTgt)
    (h1 : consRun c fuel s v = some (bs, s2)) (h2 : d.onSend = Res.ok) :
    ((bridgeFeed passThrough scriptTgt 5 [1, 2, 3] (GenSt.live, PTSt.waiting, okTgt)).map
        (bridgeClose passThrough scriptTgt) =
      some ((GenSt.dead, PTSt.doneSt,
        { okTgt with log := [Call.send 1, Call.send 2, Call.send 3, Call.close] }), Res.ok))
    ∧ bridgeSend c scriptTgt fuel (GenSt.live, s, d) v =
        some ((GenSt.live, s2, { d with log := d.log ++ bs.map Call.send }), Res.ok) := by
  constructor
  · decide
  · rcases hstep : c.step s (GIn.item v) with ⟨s1, o⟩
    have h1' : consRunAux c fuel s1 o = some (bs, s2) := by
      rw [consRun, hstep] at h1
      exact h1
    have hf := feedLoop_consRunAux c fuel s1 o d bs s2 h2 h1'
    simp only [bridgeSend, hstep, hf]

/-- Claim C7 applied at a concrete input: the pass-through routine
forwards the single pulled item 7 as the batch `[7]`. -/
theorem claim_C7_bridge_round_trip_witness :
    ((bridgeFeed passThrough scriptTgt 5 [1, 2, 3] (GenSt.live, PTSt.waiting, okTgt)).map
        (bridgeClose passThrough scriptTgt) =
      some ((GenSt.dead, PTSt.doneSt,
        { okTgt with log := [Call.send 1, Call.send 2, Call.send 3, Call.close] }), Res.ok))
    ∧ bridgeSend passThrough scriptTgt 3 (GenSt.live, PTSt.waiting, okTgt) 7 =
        some ((GenSt.live, PTSt.waiting,
          { okTgt with log := okTgt.log ++ [7].map Call.send }), Res.ok) :=
  claim_C7_bridge_round_trip passThrough 3 PTSt.waiting 7 [7] PTSt.waiting okTgt
    (by decide) (by decide)

/-- Claim C10 (confirmed): when the wrapped routine reacts to the close
signal by producing one more output value `b`, `finalize()` on the bridge
performs exactly one resumption of the routine, discards `b` (the
downstream log gains only the forwarded `finalize`, never a delivery of
`b`), abandons the routine, and still forwards `finalize()` downstream,
returning the downstream teardown's outcome; afterwards the bridge is
terminated and further deliveries are refused without resuming the
routine. -/
theorem claim_C10_bridge_discard {σ : Type} (c : Consumer σ) (s s2 : σ) (b : Val)
    (d : ScriptTgt) (h : c.step s GIn.closeSig = (s2, GOut.out b)) :
    bridgeClose c scriptTgt (GenSt.live, s, d) = ((GenSt.dead, s2, recvClose d), d.onClose)
    ∧ (∀ (fuel : Nat) (v : Val),
        bridgeSend c scriptTgt fuel (GenSt.dead, s2, recvClose d) v =
          some ((GenSt.dead, s2, recvClose d), Res.raised Exc.stopIt)) := by
  constructor
  · simp [bridgeClose, h]
  · intro fuel v
    rfl

/-- Claim C10 applied at a concrete input: a routine that emits 42 from
its cleanup. -/
theorem claim_C10_bridge_discard_witness :
    bridgeClose cleanupEmitter scriptTgt (GenSt.live, (), okTgt) =
      ((GenSt.dead, (), recvClose okTgt), okTgt.onClose)
    ∧ (∀ (fuel : Nat) (v : Val),
        bridgeSend cleanupEmitter scriptTgt fuel (GenSt.dead, (), recvClose okTgt) v =
          some ((GenSt.dead, (), recvClose okTgt), Res.raised Exc.stopIt)) :=
  claim_C10_bridge_discard cleanupEmitter () () 42 okTgt (by decide)

end GenPipeline
